import Mathlib

/-!
Verification of the bracket-based federal tax calculator
(calculator.py, state_tax.py) via a shallow embedding over ℚ.
-/

/-- One marginal-rate tier: rate, inclusive lower bound, optional
exclusive upper cap (absent for the open-ended top bracket). -/
structure TaxBracket where
  rate : ℚ
  lower : ℚ
  upper : Option ℚ
deriving DecidableEq, Repr

/-- Cap used inside the bracket loop: taxable income itself when the
bracket is unbounded, otherwise min of income and the upper bound. -/
def bracketCap (x : ℚ) (b : TaxBracket) : ℚ :=
  match b.upper with
  | none => x
  | some u => min x u

/-- Embedding of calculate_total_tax from calculator.py: iterate brackets,
stop as soon as income ≤ lower bound, otherwise accumulate
(cap − lower) × rate. -/
def calculate_total_tax (x : ℚ) : List TaxBracket → ℚ
  | [] => 0
  | b :: bs =>
    if x ≤ b.lower then 0
    else (bracketCap x b - b.lower) * b.rate + calculate_total_tax x bs

/-- One breakdown entry: (rate, taxed amount, tax, lower, upper), as
appended by calculate_tax_breakdown. -/
structure BreakdownEntry where
  rate : ℚ
  amount : ℚ
  tax : ℚ
  lower : ℚ
  upper : Option ℚ
deriving DecidableEq, Repr

/-- Embedding of calculate_tax_breakdown from calculator.py: same loop as
calculate_total_tax but an entry is recorded only when the taxed amount is
strictly positive. -/
def calculate_tax_breakdown (x : ℚ) : List TaxBracket → ℚ × List BreakdownEntry
  | [] => (0, [])
  | b :: bs =>
    if x ≤ b.lower then (0, [])
    else
      let amount := bracketCap x b - b.lower
      let rest := calculate_tax_breakdown x bs
      if 0 < amount then
        (amount * b.rate + rest.1,
          ⟨b.rate, amount, amount * b.rate, b.lower, b.upper⟩ :: rest.2)
      else rest

/-- Loop body of get_marginal_rate: the accumulator holds the rate of the
last bracket seen whose lower bound is below the income. -/
def marginalAux (x : ℚ) (acc : ℚ) : List TaxBracket → ℚ
  | [] => acc
  | b :: bs => if b.lower < x then marginalAux x b.rate bs else acc

/-- Embedding of get_marginal_rate from calculator.py. -/
def get_marginal_rate (x : ℚ) (s : List TaxBracket) : ℚ :=
  marginalAux x 0 s

/-- Embedding of calculate_effective_rate from calculator.py. -/
def calculate_effective_rate (total_tax gross_income : ℚ) : ℚ :=
  if gross_income ≤ 0 then 0 else total_tax / gross_income

/-- The hard-coded 2025 single-filer schedule FEDERAL_TAX_BRACKETS['single']. -/
def singleBrackets : List TaxBracket :=
  [⟨0.10, 0, some 11925⟩,
   ⟨0.12, 11925, some 48475⟩,
   ⟨0.22, 48475, some 103350⟩,
   ⟨0.24, 103350, some 197300⟩,
   ⟨0.32, 197300, some 250525⟩,
   ⟨0.35, 250525, some 626350⟩,
   ⟨0.37, 626350, none⟩]

/-- The hard-coded 2025 married-filing-jointly schedule FEDERAL_TAX_BRACKETS['mfj']. -/
def mfjBrackets : List TaxBracket :=
  [⟨0.10, 0, some 23850⟩,
   ⟨0.12, 23850, some 96950⟩,
   ⟨0.22, 96950, some 206700⟩,
   ⟨0.24, 206700, some 394600⟩,
   ⟨0.32, 394600, some 501050⟩,
   ⟨0.35, 501050, some 751600⟩,
   ⟨0.37, 751600, none⟩]

/-- Embedding of get_federal_brackets: dictionary lookup with empty-list
default for unrecognized filing status. -/
def get_federal_brackets (filing_status : String) : List TaxBracket :=
  if filing_status = "single" then singleBrackets
  else if filing_status = "mfj" then mfjBrackets
  else []

/-- Embedding of get_standard_deduction: dictionary lookup with 0 default. -/
def get_standard_deduction (filing_status : String) : ℚ :=
  if filing_status = "single" then 15750
  else if filing_status = "mfj" then 31500
  else 0

/-- Per-bracket invariant from spec §3: rate is a decimal fraction in
(0, 1] and the lower bound is non-negative. -/
def bracketOk (b : TaxBracket) : Prop :=
  0 < b.rate ∧ b.rate ≤ 1 ∧ 0 ≤ b.lower

/-- Consecutive-bracket invariant from spec §3: strictly increasing lower
bounds, contiguity (lower bound equals previous upper bound), and
ascending rates. -/
def adjOk (a b : TaxBracket) : Prop :=
  a.lower < b.lower ∧ a.upper = some b.lower ∧ a.rate ≤ b.rate

/-- The §3 Bracket Schedule invariants: non-empty, per-bracket bounds,
contiguous strictly-ascending chain, every non-last bracket capped, and
the last bracket (exactly that one) unbounded. -/
def validSchedule (s : List TaxBracket) : Prop :=
  s ≠ [] ∧ (∀ b ∈ s, bracketOk b) ∧ List.Chain' adjOk s ∧
  (∀ b ∈ s.dropLast, b.upper ≠ none) ∧
  (∀ b, s.getLast? = some b → b.upper = none)

instance : DecidablePred bracketOk := fun b =>
  inferInstanceAs (Decidable (_ ∧ _))

instance (a b : TaxBracket) : Decidable (adjOk a b) :=
  inferInstanceAs (Decidable (_ ∧ _))

instance (s : List TaxBracket) : Decidable (validSchedule s) :=
  inferInstanceAs (Decidable (_ ∧ _))

/-- Dropping the head of a valid schedule of length ≥ 2 leaves a valid
schedule. -/
theorem validSchedule_tail {b c : TaxBracket} {bs : List TaxBracket}
    (h : validSchedule (b :: c :: bs)) : validSchedule (c :: bs) := by
  obtain ⟨-, hok, hch, hdl, hlast⟩ := h
  refine ⟨by simp, fun a ha => hok a (List.mem_cons_of_mem b ha), ?_, ?_, ?_⟩
  · exact (List.chain'_cons.mp hch).2
  · intro a ha
    exact hdl a (by simpa using Or.inr ha)
  · intro a ha
    exact hlast a (by simpa using ha)

/-- In a valid schedule every capped bracket has its upper bound strictly
above its lower bound. -/
theorem validSchedule_upper_gt :
    ∀ (s : List TaxBracket), validSchedule s →
      ∀ b ∈ s, ∀ u, b.upper = some u → b.lower < u
  | [], _, b, hb, _, _ => absurd hb (by simp)
  | [a], h, b, hb, u, hu => by
    have hb' : b = a := by simpa using hb
    have : a.upper = none := h.2.2.2.2 a (by simp)
    rw [hb', this] at hu
    exact absurd hu (by simp)
  | a :: c :: bs, h, b, hb, u, hu => by
    rcases (by simpa using hb : b = a ∨ b = c ∨ b ∈ bs) with rfl | hmem
    · have hadj : adjOk b c := (List.chain'_cons.mp h.2.2.1).1
      have : u = c.lower := by
        have := hadj.2.1
        rw [this] at hu
        exact (Option.some_inj.mp hu).symm
      rw [this]
      exact hadj.1
    · exact validSchedule_upper_gt (c :: bs) (validSchedule_tail h) b
        (by simpa using hmem) u hu

/-- The per-bracket facts the bracket loop actually needs: non-negative
rate and upper bound strictly above lower bound when present. -/
def schedOk (s : List TaxBracket) : Prop :=
  ∀ b ∈ s, 0 ≤ b.rate ∧ ∀ u, b.upper = some u → b.lower < u

theorem validSchedule_schedOk {s : List TaxBracket}
    (h : validSchedule s) : schedOk s := by
  intro b hb
  exact ⟨le_of_lt (h.2.1 b hb).1, validSchedule_upper_gt s h b hb⟩

theorem schedOk_tail {b : TaxBracket} {bs : List TaxBracket}
    (h : schedOk (b :: bs)) : schedOk bs :=
  fun a ha => h a (by simp [ha])

/-- When income exceeds a bracket's lower bound and its cap (if any) also
does, the capped income stays strictly above the lower bound. -/
theorem lower_lt_cap {x : ℚ} {b : TaxBracket} (hx : b.lower < x)
    (hu : ∀ u, b.upper = some u → b.lower < u) : b.lower < bracketCap x b := by
  unfold bracketCap
  cases h : b.upper with
  | none => exact hx
  | some u => exact lt_min hx (hu u h)

/-- The capped income is monotone in the income. -/
theorem bracketCap_mono {x y : ℚ} (hxy : x ≤ y) (b : TaxBracket) :
    bracketCap x b ≤ bracketCap y b := by
  unfold bracketCap
  cases b.upper with
  | none => exact hxy
  | some u => exact min_le_min hxy le_rfl

theorem calculate_total_tax_nonneg :
    ∀ (s : List TaxBracket), schedOk s → ∀ x : ℚ,
      0 ≤ calculate_total_tax x s
  | [], _, _ => le_refl 0
  | b :: bs, h, x => by
    by_cases hx : x ≤ b.lower
    · simp [calculate_total_tax, hx]
    · have hlt : b.lower < x := lt_of_not_le hx
      have hb := h b (List.mem_cons_self b bs)
      have h1 : 0 ≤ bracketCap x b - b.lower :=
        sub_nonneg.mpr (le_of_lt (lower_lt_cap hlt hb.2))
      have h2 := calculate_total_tax_nonneg bs (schedOk_tail h) x
      simp only [calculate_total_tax, if_neg hx]
      exact add_nonneg (mul_nonneg h1 hb.1) h2

theorem calculate_total_tax_mono :
    ∀ (s : List TaxBracket), schedOk s → ∀ {x y : ℚ}, x ≤ y →
      calculate_total_tax x s ≤ calculate_total_tax y s
  | [], _, _, _, _ => le_refl 0
  | b :: bs, h, x, y, hxy => by
    by_cases hy : y ≤ b.lower
    · have hx : x ≤ b.lower := le_trans hxy hy
      simp [calculate_total_tax, hx, hy]
    · by_cases hx : x ≤ b.lower
      · simp only [calculate_total_tax, if_pos hx]
        exact calculate_total_tax_nonneg (b :: bs) h y
      · simp only [calculate_total_tax, if_neg hx, if_neg hy]
        have hb := h b (List.mem_cons_self b bs)
        have hcap : bracketCap x b ≤ bracketCap y b := bracketCap_mono hxy b
        have hIH := calculate_total_tax_mono bs (schedOk_tail h) hxy
        have hterm : (bracketCap x b - b.lower) * b.rate ≤
            (bracketCap y b - b.lower) * b.rate :=
          mul_le_mul_of_nonneg_right (by linarith) hb.1
        linarith

/-- The running total of the breakdown is by construction the sum of the
recorded entry taxes; no side condition is needed. -/
theorem breakdown_sum :
    ∀ (s : List TaxBracket) (x : ℚ),
      ((calculate_tax_breakdown x s).2.map BreakdownEntry.tax).sum =
        (calculate_tax_breakdown x s).1
  | [], x => by simp [calculate_tax_breakdown]
  | b :: bs, x => by
    by_cases hx : x ≤ b.lower
    · simp [calculate_tax_breakdown, hx]
    · by_cases ha : 0 < bracketCap x b - b.lower
      · simp [calculate_tax_breakdown, hx, ha, breakdown_sum bs x]
      · simp [calculate_tax_breakdown, hx, ha, breakdown_sum bs x]

/-- Over a schedule with the per-bracket loop facts, the breakdown's total
coincides with calculate_total_tax. -/
theorem breakdown_fst :
    ∀ (s : List TaxBracket), schedOk s → ∀ x : ℚ,
      (calculate_tax_breakdown x s).1 = calculate_total_tax x s
  | [], _, _ => rfl
  | b :: bs, h, x => by
    by_cases hx : x ≤ b.lower
    · simp [calculate_tax_breakdown, calculate_total_tax, hx]
    · have hlt : b.lower < x := lt_of_not_le hx
      have hb := h b (List.mem_cons_self b bs)
      have ha : 0 < bracketCap x b - b.lower :=
        sub_pos.mpr (lower_lt_cap hlt hb.2)
      simp [calculate_tax_breakdown, calculate_total_tax, hx, ha,
        breakdown_fst bs (schedOk_tail h) x]

/-- A non-empty list always has a last element. -/
theorem cons_getLast_some {α : Type} :
    ∀ (c : α) (l : List α), ∃ d, (c :: l).getLast? = some d
  | c, [] => ⟨c, rfl⟩
  | c, e :: l => by
    obtain ⟨d, hd⟩ := cons_getLast_some e l
    exact ⟨d, by rw [List.getLast?_cons_cons, hd]⟩

/-- The marginal-rate loop returns the rate of the last bracket in the
longest strictly-below-income prefix, or the accumulator if none. -/
theorem marginalAux_eq :
    ∀ (s : List TaxBracket) (x acc : ℚ),
      marginalAux x acc s =
        (((s.takeWhile fun b => decide (b.lower < x)).getLast?).map
          TaxBracket.rate).getD acc
  | [], _, _ => rfl
  | b :: bs, x, acc => by
    by_cases hb : b.lower < x
    · simp only [marginalAux, if_pos hb]
      rw [marginalAux_eq bs x b.rate,
        List.takeWhile_cons_of_pos (by simpa using hb)]
      cases h2 : bs.takeWhile (fun c => decide (c.lower < x)) with
      | nil => simp
      | cons c cs =>
        obtain ⟨d, hd⟩ := cons_getLast_some c cs
        rw [List.getLast?_cons_cons, hd]
        simp
    · simp only [marginalAux, if_neg hb]
      rw [List.takeWhile_cons_of_neg (by simpa using hb)]
      simp

/-- For a list where the predicate is downward closed along the order of
the list, filtering and taking the prefix agree. -/
theorem filter_eq_takeWhile_of_pw {α : Type} (p : α → Bool) :
    ∀ (s : List α),
      List.Pairwise (fun a b => p b = true → p a = true) s →
      s.filter p = s.takeWhile p
  | [], _ => rfl
  | b :: bs, h => by
    by_cases hb : p b = true
    · rw [List.filter_cons_of_pos hb, List.takeWhile_cons_of_pos hb,
        filter_eq_takeWhile_of_pw p bs (List.Pairwise.of_cons h)]
    · rw [List.filter_cons_of_neg hb, List.takeWhile_cons_of_neg hb]
      exact List.filter_eq_nil_iff.mpr
        fun a ha hpa => hb ((List.pairwise_cons.mp h).1 a ha hpa)

/-- The breakdown entry the loop records for a bracket that is reached. -/
def entryOf (x : ℚ) (b : TaxBracket) : BreakdownEntry :=
  ⟨b.rate, bracketCap x b - b.lower, (bracketCap x b - b.lower) * b.rate,
    b.lower, b.upper⟩

/-- Over a schedule with the per-bracket loop facts, the breakdown list is
exactly one entry per bracket in the longest prefix of brackets whose
lower bound is below the income. -/
theorem breakdown_snd :
    ∀ (s : List TaxBracket), schedOk s → ∀ x : ℚ,
      (calculate_tax_breakdown x s).2 =
        (s.takeWhile fun b => decide (b.lower < x)).map (entryOf x)
  | [], _, _ => rfl
  | b :: bs, h, x => by
    by_cases hx : x ≤ b.lower
    · rw [List.takeWhile_cons_of_neg (by simpa using not_lt.mpr hx)]
      simp [calculate_tax_breakdown, hx]
    · have hlt : b.lower < x := lt_of_not_le hx
      have hb := h b (List.mem_cons_self b bs)
      have ha : 0 < bracketCap x b - b.lower :=
        sub_pos.mpr (lower_lt_cap hlt hb.2)
      rw [List.takeWhile_cons_of_pos (by simpa using hlt)]
      simp [calculate_tax_breakdown, hx, ha, entryOf,
        breakdown_snd bs (schedOk_tail h) x]

/-- A valid schedule has pairwise strictly increasing lower bounds, hence
the below-income test is downward closed along the list. -/
theorem validSchedule_pairwise_below {s : List TaxBracket}
    (h : validSchedule s) (x : ℚ) :
    List.Pairwise
      (fun a b : TaxBracket =>
        decide (b.lower < x) = true → decide (a.lower < x) = true) s := by
  haveI : IsTrans TaxBracket (fun a b : TaxBracket => a.lower < b.lower) :=
    ⟨fun _ _ _ => lt_trans⟩
  have hch : List.Chain' (fun a b : TaxBracket => a.lower < b.lower) s :=
    List.Chain'.imp (fun _ _ hab => hab.1) h.2.2.1
  have hpw := List.chain'_iff_pairwise.mp hch
  exact hpw.imp fun hab hb => by
    simp only [decide_eq_true_eq] at *
    linarith

/-- Filtering brackets below the income coincides with the prefix the loop
traverses, for any valid schedule. -/
theorem filter_below_eq_takeWhile {s : List TaxBracket}
    (h : validSchedule s) (x : ℚ) :
    (s.filter fun b => decide (b.lower < x)) =
      s.takeWhile fun b => decide (b.lower < x) :=
  filter_eq_takeWhile_of_pw _ s (validSchedule_pairwise_below h x)

/-- The single-filer 2025 schedule satisfies the §3 invariants. -/
theorem singleBrackets_valid : validSchedule singleBrackets := by
  refine ⟨by simp [singleBrackets], ?_, ?_, ?_, ?_⟩ <;>
    norm_num [singleBrackets, bracketOk, adjOk, Option.some_ne_none,
      List.chain'_cons, List.chain'_singleton]

/-- The married-filing-jointly 2025 schedule satisfies the §3 invariants. -/
theorem mfjBrackets_valid : validSchedule mfjBrackets := by
  refine ⟨by simp [mfjBrackets], ?_, ?_, ?_, ?_⟩ <;>
    norm_num [mfjBrackets, bracketOk, adjOk, Option.some_ne_none,
      List.chain'_cons, List.chain'_singleton]

theorem singleBrackets_head_lower :
    ∀ b, singleBrackets.head? = some b → b.lower = 0 := by
  intro b hb
  simp only [singleBrackets, List.head?_cons, Option.some_inj] at hb
  rw [← hb]

theorem mfjBrackets_head_lower :
    ∀ b, mfjBrackets.head? = some b → b.lower = 0 := by
  intro b hb
  simp only [mfjBrackets, List.head?_cons, Option.some_inj] at hb
  rw [← hb]

/-- Embedding of the STATE_TAX_TYPE_2025 dictionary from state_tax.py as
an association list. -/
def STATE_TAX_TYPE_2025 : List (String × String) :=
  [("AK", "none"), ("AL", "graduated"), ("AR", "graduated"), ("AZ", "flat"),
   ("CA", "graduated"), ("CO", "flat"), ("CT", "graduated"), ("DC", "graduated"),
   ("DE", "graduated"), ("FL", "none"), ("GA", "flat"), ("HI", "graduated"),
   ("IA", "flat"), ("ID", "flat"), ("IL", "flat"), ("IN", "flat"),
   ("KS", "graduated"), ("KY", "flat"), ("LA", "flat"), ("MA", "graduated"),
   ("MD", "graduated"), ("ME", "graduated"), ("MI", "flat"), ("MN", "graduated"),
   ("MO", "graduated"), ("MS", "flat"), ("MT", "graduated"), ("NC", "flat"),
   ("ND", "graduated"), ("NE", "graduated"), ("NH", "none"), ("NJ", "graduated"),
   ("NM", "graduated"), ("NV", "none"), ("NY", "graduated"), ("OH", "graduated"),
   ("OK", "graduated"), ("OR", "graduated"), ("PA", "flat"), ("RI", "graduated"),
   ("SC", "graduated"), ("SD", "none"), ("TN", "none"), ("TX", "none"),
   ("UT", "flat"), ("VA", "graduated"), ("VT", "graduated"), ("WA", "flat"),
   ("WI", "graduated"), ("WV", "graduated"), ("WY", "none")]

/-- Embedding of get_state_tax_type from state_tax.py: dictionary lookup
defaulting to the string unknown. -/
def get_state_tax_type (state_code : String) : String :=
  (STATE_TAX_TYPE_2025.lookup state_code).getD "unknown"

/-- Embedding of calculate_state_tax from state_tax.py; the Python None
result is modelled as Option.none. -/
def calculate_state_tax (taxable_income : ℚ) (state_code : String) :
    Option ℚ × String :=
  let tax_type := get_state_tax_type state_code
  if tax_type = "none" then (some 0, "No state income tax")
  else if tax_type = "flat" then (none, "N/A (flat tax not yet implemented)")
  else if tax_type = "graduated" then
    (none, "N/A (graduated tax not yet implemented)")
  else (none, "N/A (unknown/unsupported state)")

/-- C1: for every taxable income and every §3-valid schedule, the
breakdown's total equals calculate_total_tax on the same inputs, and the
per-entry taxes sum exactly to that total. -/
theorem C1_breakdown_total (s : List TaxBracket) (h : validSchedule s)
    (x : ℚ) :
    (calculate_tax_breakdown x s).1 = calculate_total_tax x s ∧
    ((calculate_tax_breakdown x s).2.map BreakdownEntry.tax).sum =
      (calculate_tax_breakdown x s).1 :=
  ⟨breakdown_fst s (validSchedule_schedOk h) x, breakdown_sum s x⟩

theorem C1_witness :
    (calculate_tax_breakdown 50000 singleBrackets).1 =
      calculate_total_tax 50000 singleBrackets ∧
    ((calculate_tax_breakdown 50000 singleBrackets).2.map
      BreakdownEntry.tax).sum =
      (calculate_tax_breakdown 50000 singleBrackets).1 :=
  C1_breakdown_total singleBrackets singleBrackets_valid 50000

/-- C2: over a §3-valid schedule the total tax is non-negative on
non-negative income and monotone non-decreasing in the income. -/
theorem C2_total_tax_nonneg_mono (s : List TaxBracket)
    (h : validSchedule s) :
    (∀ x : ℚ, 0 ≤ x → 0 ≤ calculate_total_tax x s) ∧
    (∀ x y : ℚ, 0 ≤ x → x ≤ y →
      calculate_total_tax x s ≤ calculate_total_tax y s) :=
  ⟨fun x _ => calculate_total_tax_nonneg s (validSchedule_schedOk h) x,
   fun _ _ _ hxy => calculate_total_tax_mono s (validSchedule_schedOk h) hxy⟩

theorem C2_witness :
    0 ≤ calculate_total_tax 12000 singleBrackets ∧
    calculate_total_tax 12000 singleBrackets ≤
      calculate_total_tax 60000 singleBrackets :=
  ⟨(C2_total_tax_nonneg_mono singleBrackets singleBrackets_valid).1 12000
      (by norm_num),
   (C2_total_tax_nonneg_mono singleBrackets singleBrackets_valid).2 12000 60000
      (by norm_num) (by norm_num)⟩

/-- C3: the marginal rate is the rate of the highest (last, the schedule
being sorted) bracket whose lower bound is strictly below the income, or
0 when no bracket qualifies; in particular income at or below the first
bracket's lower bound gives 0. -/
theorem C3_marginal_rate (s : List TaxBracket) (h : validSchedule s)
    (x : ℚ) :
    get_marginal_rate x s =
      (((s.filter fun b => decide (b.lower < x)).getLast?).map
        TaxBracket.rate).getD 0 ∧
    ∀ b, s.head? = some b → x ≤ b.lower → get_marginal_rate x s = 0 := by
  constructor
  · rw [get_marginal_rate, marginalAux_eq, filter_below_eq_takeWhile h]
  · intro b hb hxb
    cases s with
    | nil => rfl
    | cons c cs =>
      have hcb : c = b := by simpa using hb
      subst hcb
      simp [get_marginal_rate, marginalAux, not_lt.mpr hxb]

theorem C3_witness :
    get_marginal_rate 50000 singleBrackets =
      (((singleBrackets.filter fun b => decide (b.lower < 50000)).getLast?).map
        TaxBracket.rate).getD 0 :=
  (C3_marginal_rate singleBrackets singleBrackets_valid 50000).1

/-- C4: the effective rate is tax over gross income when the gross income
is strictly positive, and 0 on any non-positive gross income, the division
being guarded by that test. -/
theorem C4_effective_rate (total_tax gross_income : ℚ) :
    (0 < gross_income →
      calculate_effective_rate total_tax gross_income =
        total_tax / gross_income) ∧
    (gross_income ≤ 0 →
      calculate_effective_rate total_tax gross_income = 0) := by
  constructor
  · intro hg
    simp [calculate_effective_rate, not_le.mpr hg]
  · intro hg
    simp [calculate_effective_rate, hg]

theorem C4_witness :
    calculate_effective_rate 5914 50000 = 5914 / 50000 ∧
    calculate_effective_rate 5914 0 = 0 :=
  ⟨(C4_effective_rate 5914 50000).1 (by norm_num),
   (C4_effective_rate 5914 0).2 (by norm_num)⟩

/-- C5: for strictly positive income over a §3-valid schedule whose first
bracket starts at 0, the breakdown is non-empty and the rate of its last
entry is exactly the marginal rate. -/
theorem C5_marginal_is_last_entry (s : List TaxBracket)
    (h : validSchedule s) (x : ℚ) (hx : 0 < x)
    (h0 : ∀ b, s.head? = some b → b.lower = 0) :
    ∃ e, (calculate_tax_breakdown x s).2.getLast? = some e ∧
      e.rate = get_marginal_rate x s := by
  cases s with
  | nil => exact absurd rfl h.1
  | cons b bs =>
    have hb0 : b.lower = 0 := h0 b rfl
    have hOk := validSchedule_schedOk h
    have hpos : decide (b.lower < x) = true := by
      rw [hb0]
      simpa using hx
    obtain ⟨d, hd⟩ :=
      cons_getLast_some b (bs.takeWhile fun c => decide (c.lower < x))
    refine ⟨entryOf x d, ?_, ?_⟩
    · rw [breakdown_snd _ hOk x]
      simp only [List.takeWhile_cons, hpos, if_true, List.getLast?_map, hd]
      rfl
    · rw [get_marginal_rate, marginalAux_eq]
      simp only [List.takeWhile_cons, hpos, if_true, hd]
      rfl

theorem C5_witness :
    ∃ e, (calculate_tax_breakdown 50000 singleBrackets).2.getLast? = some e ∧
      e.rate = get_marginal_rate 50000 singleBrackets :=
  C5_marginal_is_last_entry singleBrackets singleBrackets_valid 50000
    (by norm_num) singleBrackets_head_lower

/-- C6: on the single-filer 2025 schedule at income 50000 the breakdown
has total 5914, exactly the three per-bracket taxes 1192.50, 4386.00 and
335.50, and the marginal rate is 0.22. -/
theorem C6_single_50000 :
    (calculate_tax_breakdown 50000 singleBrackets).1 = 5914 ∧
    (calculate_tax_breakdown 50000 singleBrackets).2.map
      BreakdownEntry.tax = [1192.50, 4386.00, 335.50] ∧
    (calculate_tax_breakdown 50000 singleBrackets).2.length = 3 ∧
    get_marginal_rate 50000 singleBrackets = 0.22 := by
  refine ⟨?_, ?_, ?_, ?_⟩ <;>
    norm_num [calculate_tax_breakdown, singleBrackets, bracketCap,
      get_marginal_rate, marginalAux]

/-- C7: an unrecognized filing status yields the empty schedule and a zero
standard deduction, and the total tax over the empty schedule is 0 for
every income. -/
theorem C7_unknown_status :
    (∀ fs : String, fs ≠ "single" → fs ≠ "mfj" →
      get_federal_brackets fs = [] ∧ get_standard_deduction fs = 0) ∧
    (∀ x : ℚ, calculate_total_tax x [] = 0) := by
  constructor
  · intro fs h1 h2
    constructor
    · simp [get_federal_brackets, h1, h2]
    · simp [get_standard_deduction, h1, h2]
  · intro x
    rfl

theorem C7_witness :
    get_federal_brackets "unknown" = [] ∧
    get_standard_deduction "unknown" = 0 ∧
    calculate_total_tax 12345 [] = 0 :=
  ⟨(C7_unknown_status.1 "unknown" (by decide) (by decide)).1,
   (C7_unknown_status.1 "unknown" (by decide) (by decide)).2,
   C7_unknown_status.2 12345⟩

/-- C8: both hard-coded 2025 schedules satisfy the §3 invariants
(non-empty, rates in (0,1] ascending, lower bounds strictly increasing and
contiguous with the previous upper bound, exactly the last bracket
uncapped) and both start at lower bound 0. -/
theorem C8_schedules_valid :
    (validSchedule singleBrackets ∧
      (singleBrackets.map TaxBracket.lower).head? = some 0) ∧
    (validSchedule mfjBrackets ∧
      (mfjBrackets.map TaxBracket.lower).head? = some 0) :=
  ⟨⟨singleBrackets_valid, by simp [singleBrackets]⟩,
   ⟨mfjBrackets_valid, by simp [mfjBrackets]⟩⟩

/-- C9: non-positive income over any schedule whose first bracket starts
at 0 gives total tax 0, an empty breakdown with total 0, and marginal
rate 0. -/
theorem C9_nonpositive_income (x : ℚ) (s : List TaxBracket) (hx : x ≤ 0)
    (h0 : ∀ b, s.head? = some b → b.lower = 0) :
    calculate_total_tax x s = 0 ∧
    calculate_tax_breakdown x s = (0, []) ∧
    get_marginal_rate x s = 0 := by
  cases s with
  | nil => exact ⟨rfl, rfl, rfl⟩
  | cons b bs =>
    have hb0 : b.lower = 0 := h0 b rfl
    have hle : x ≤ b.lower := by rw [hb0]; exact hx
    refine ⟨?_, ?_, ?_⟩ <;>
      simp [calculate_total_tax, calculate_tax_breakdown, get_marginal_rate,
        marginalAux, hle, not_lt.mpr hle]

theorem C9_witness :
    calculate_total_tax 0 singleBrackets = 0 ∧
    calculate_tax_breakdown 0 singleBrackets = (0, []) ∧
    get_marginal_rate 0 singleBrackets = 0 :=
  C9_nonpositive_income 0 singleBrackets (le_refl 0)
    singleBrackets_head_lower

/-- C10: the state-tax stub ignores the income entirely — equal results
for any two incomes — and its result is classified by the state's tax
type: exactly the none-type states give (0, no-state-income-tax label),
every other code gives an unimplemented/unknown placeholder with no
amount, and no case errors. -/
theorem C10_state_tax_income_independent :
    (∀ (code : String) (x y : ℚ),
      calculate_state_tax x code = calculate_state_tax y code) ∧
    (∀ (code : String) (x : ℚ),
      (get_state_tax_type code = "none" →
        calculate_state_tax x code = (some 0, "No state income tax")) ∧
      (get_state_tax_type code ≠ "none" →
        (calculate_state_tax x code).1 = none)) := by
  constructor
  · intro code x y
    rfl
  · intro code x
    constructor
    · intro h
      simp [calculate_state_tax, h]
    · intro h
      by_cases h2 : get_state_tax_type code = "flat" <;>
        by_cases h3 : get_state_tax_type code = "graduated" <;>
          simp [calculate_state_tax, h, h2, h3]

theorem C10_witness :
    calculate_state_tax 100 "TX" = calculate_state_tax 200 "TX" ∧
    calculate_state_tax 100 "TX" = (some 0, "No state income tax") ∧
    (calculate_state_tax 100 "CA").1 = none :=
  ⟨C10_state_tax_income_independent.1 "TX" 100 200,
   (C10_state_tax_income_independent.2 "TX" 100).1 (by decide),
   (C10_state_tax_income_independent.2 "CA" 100).2 (by decide)⟩
